import Mathlib

/-!
# Verification of the BLS single-signature module (`src/single.rs`)

Shallow embedding of the secret-key lifecycle (unprotected `SecretKeyVT`
and split/point-mutated `SecretKey`), the compression codec, and the
VRF-style output derivation, over an abstract engine: the scalar field is
an arbitrary commutative ring `S`, the signature group `G` and public-key
group `P` are modules over `S`, and the external curve-arithmetic
collaborator (hash-to-curve, affine conversion, canonical byte
serialization) is passed in as explicit function parameters.  Randomness
sampling is embedded by passing each sampled scalar or point explicitly.
-/

section Engine

variable (S G : Type)

/-- `Message` from the crate root (outside this module's excerpt).
Modelled from the spec: a context tag plus an arbitrary byte payload;
bytes are modelled as natural numbers. -/
structure Message where
  context : List Nat
  payload : List Nat
deriving DecidableEq

/-- `SecretKeyVT<E>`: secret signing key lacking side-channel
protections, a single scalar. -/
structure SecretKeyVT where
  scalar : S
deriving DecidableEq

/-- `SecretKey<E>`: secret signing key split into two shares
`key[0], key[1]` together with the point-mutation state
`old_unsigned`, `old_signed`. -/
structure SecretKey where
  key0 : S
  key1 : S
  old_unsigned : G
  old_signed : G
deriving DecidableEq

/-- `Signature<E>`: wrapper around one element of the signature group. -/
structure Signature where
  pt : G
deriving DecidableEq

/-- `PublicKey<E>`: wrapper around one element of the public-key group. -/
structure PublicKey where
  pt : G
deriving DecidableEq

/-- `SignedMessage<E>`: message together with public key and signature. -/
structure SignedMessage (P : Type) where
  message : Message
  publickey : PublicKey P
  signature : Signature G
deriving DecidableEq

end Engine

section Lifecycle

variable {S G P : Type} [CommRing S] [AddCommGroup G] [Module S G]
variable [AddCommGroup P] [Module S P]

/-- `SecretKeyVT::sign`: `s = H(message); s *= self.0; Signature(s)`.
The hash-to-curve collaborator is passed as `hashM`. -/
def SecretKeyVT.sign (sk : SecretKeyVT S) (hashM : Message → G) (message : Message) :
    Signature G :=
  let s : G := hashM message
  Signature.mk (sk.scalar • s)

/-- `SecretKeyVT::into_split_dirty`: wrap the scalar as
`key = [secret, 0]` with zero point-mutation state. -/
def SecretKeyVT.into_split_dirty (sk : SecretKeyVT S) : SecretKey S G :=
  { key0 := sk.scalar
    key1 := 0
    old_unsigned := 0
    old_signed := 0 }

/-- `SecretKeyVT::into_public`: `generator.mul(self.0)`, with the
prime-subgroup generator of the public-key group passed as `gen`. -/
def SecretKeyVT.into_public (sk : SecretKeyVT S) (gen : P) : PublicKey P :=
  PublicKey.mk (sk.scalar • gen)

/-- `SecretKey::init_point_mutation`: sample a random signature-group
point `s` (passed explicitly), set `old_unsigned = s` and
`old_signed = key[0]·s + key[1]·s`. -/
def SecretKey.init_point_mutation (sk : SecretKey S G) (s : G) : SecretKey S G :=
  { sk with
    old_unsigned := s
    old_signed := sk.key0 • s + sk.key1 • s }

/-- `SecretKey::into_vartime`: collapse the two shares into one scalar. -/
def SecretKey.into_vartime (sk : SecretKey S G) : SecretKeyVT S :=
  SecretKeyVT.mk (sk.key0 + sk.key1)

/-- `SecretKey::resplit`: sample a fresh scalar `x` (passed explicitly),
`key[0] += x; key[1] -= x`. -/
def SecretKey.resplit (sk : SecretKey S G) (x : S) : SecretKey S G :=
  { sk with
    key0 := sk.key0 + x
    key1 := sk.key1 - x }

/-- A finite sequence of `resplit` calls with the sampled scalars `xs`. -/
def SecretKey.resplits (sk : SecretKey S G) (xs : List S) : SecretKey S G :=
  xs.foldl SecretKey.resplit sk

/-- `SecretKey::sign_once`: the core transform.  Returns the mutated key
together with the produced signature:
`z = H(message) - old_unsigned; old_unsigned = z;
t = key[0]·z; z = key[1]·z + t;
old_signed, self.old_signed = self.old_signed, z; Signature(z + old_signed)`. -/
def SecretKey.sign_once (sk : SecretKey S G) (hashM : Message → G) (message : Message) :
    SecretKey S G × Signature G :=
  let z : G := hashM message - sk.old_unsigned
  let t : G := sk.key0 • z
  let z2 : G := sk.key1 • z + t
  let old_signed : G := sk.old_signed
  ({ sk with old_unsigned := z, old_signed := z2 },
   Signature.mk (z2 + old_signed))

/-- `SecretKey::sign`: `self.resplit(rng); self.sign_once(message)`. -/
def SecretKey.sign (sk : SecretKey S G) (x : S) (hashM : Message → G) (message : Message) :
    SecretKey S G × Signature G :=
  (sk.resplit x).sign_once hashM message

/-- `SecretKey::into_public`:
`publickey = generator.mul(key[0]); publickey += generator.mul(key[1])`. -/
def SecretKey.into_public (sk : SecretKey S G) (gen : P) : PublicKey P :=
  PublicKey.mk (sk.key0 • gen + sk.key1 • gen)

/-- The point-mutation invariant stated by the spec:
`old_signed == key0·old_unsigned + key1·old_unsigned`. -/
def SecretKey.point_mutation_invariant (sk : SecretKey S G) : Prop :=
  sk.old_signed = sk.key0 • sk.old_unsigned + sk.key1 • sk.old_unsigned

instance (sk : SecretKey ℤ ℤ) : Decidable sk.point_mutation_invariant := by
  unfold SecretKey.point_mutation_invariant; infer_instance

end Lifecycle

section Codec

/-- `GroupDecodingError` from `crate::encoding` (re-exported by this
module); the payloads of `CoordinateDecodingError` (a string and the
external field-decoding error) are elided, only the variant matters. -/
inductive GroupDecodingError where
  | NotOnCurve
  | NotInSubgroup
  | CoordinateDecodingError
  | UnexpectedCompressionMode
  | UnexpectedInformation
deriving DecidableEq

variable (G A : Type)

/-- The external curve-arithmetic/serialization collaborator consumed by
the compression codec and the VRF hash: projective→affine conversion
(`into_affine`), affine→projective conversion (`into_projective`), the
external library's canonical compressed encoding (`into_compressed`),
the validating parse of a compressed encoding back to an affine point
(`EncodedPoint::into_affine`, here `encoded_into_affine`), and the
canonical uncompressed affine serialization (`serialize_uncompressed`).
Bytes are modelled as lists of naturals. -/
structure CurveOps where
  into_affine : G → A
  into_projective : A → G
  into_compressed : A → List Nat
  encoded_into_affine : List Nat → Except GroupDecodingError A
  serialize_uncompressed : A → List Nat

variable {G A}

/-- `EncodedPoint::empty` as implemented by the `compression!` macro
for `$encodedwrapper`: `$encodedwrapper::default()`, whose
`serialized_point` field is `Vec::default()` — the empty byte vector,
of length 0, not a zeroed fixed-size compressed buffer. -/
def EncodedPoint.empty : List Nat :=
  []

/-- `EncodedPoint::from_affine` as generated by the `compression!` macro:
fill a buffer of `affine.uncompressed_size()` bytes with the point's
*uncompressed* serialization. -/
def EncodedPoint.from_affine (ops : CurveOps G A) (affine : A) : List Nat :=
  ops.serialize_uncompressed affine

/-- `Signature::compress`: `self.0.into_affine().into_compressed()`. -/
def Signature.compress (ops : CurveOps G A) (x : Signature G) : List Nat :=
  ops.into_compressed (ops.into_affine x.pt)

/-- `Signature::decompress`: `compressed.into_affine()?.into_projective()`. -/
def Signature.decompress (ops : CurveOps G A) (compressed : List Nat) :
    Except GroupDecodingError (Signature G) :=
  (ops.encoded_into_affine compressed).map fun a => Signature.mk (ops.into_projective a)

/-- `Signature::decompress_from_slice`: build `EncodedPoint::empty()`,
reject a slice whose length differs from that representation's length
(`compressed.as_mut().len()`, which is 0 for the macro's Vec-backed
default) with `UnexpectedInformation`, otherwise `copy_from_slice` and
`decompress`. -/
def Signature.decompress_from_slice (ops : CurveOps G A) (slice : List Nat) :
    Except GroupDecodingError (Signature G) :=
  let compressed := EncodedPoint.empty
  if slice.length ≠ compressed.length then
    Except.error GroupDecodingError.UnexpectedInformation
  else
    Signature.decompress ops slice

/-- `Signature::to_bytes` from `zbls_serialization!`: allocate
`[0u8; size]` and `copy_from_slice` the `serialized_point` produced by
`EncodedPoint::from_affine(self.0.into_affine())`; `copy_from_slice`
panics when the lengths differ, modelled as `none`. -/
def Signature.to_bytes (ops : CurveOps G A) (size : Nat) (x : Signature G) :
    Option (List Nat) :=
  let serialized_point := EncodedPoint.from_affine ops (ops.into_affine x.pt)
  if serialized_point.length = size then some serialized_point else none

/-- `PublicKey::compress`: `self.0.into_affine().into_compressed()`. -/
def PublicKey.compress (ops : CurveOps G A) (x : PublicKey G) : List Nat :=
  ops.into_compressed (ops.into_affine x.pt)

/-- `PublicKey::decompress`: `compressed.into_affine()?.into_projective()`. -/
def PublicKey.decompress (ops : CurveOps G A) (compressed : List Nat) :
    Except GroupDecodingError (PublicKey G) :=
  (ops.encoded_into_affine compressed).map fun a => PublicKey.mk (ops.into_projective a)

/-- `PublicKey::decompress_from_slice`, from the same `compression!`
macro expansion as the `Signature` version. -/
def PublicKey.decompress_from_slice (ops : CurveOps G A) (slice : List Nat) :
    Except GroupDecodingError (PublicKey G) :=
  let compressed := EncodedPoint.empty
  if slice.length ≠ compressed.length then
    Except.error GroupDecodingError.UnexpectedInformation
  else
    PublicKey.decompress ops slice

/-- `PublicKey::to_bytes` from `zbls_serialization!`, same expansion as
the `Signature` version. -/
def PublicKey.to_bytes (ops : CurveOps G A) (size : Nat) (x : PublicKey G) :
    Option (List Nat) :=
  let serialized_point := EncodedPoint.from_affine ops (ops.into_affine x.pt)
  if serialized_point.length = size then some serialized_point else none

/-- The two concrete curve variants instantiated by
`zbls_serialization!`: `UsualBLS<Bls12_381>` and `TinyBLS<Bls12_381>`. -/
inductive BLSVariant where
  | UsualBLS
  | TinyBLS
deriving DecidableEq

/-- Modelled from the spec: the external library's canonical compressed
encoding size of the BLS12-381 G1 group, 48 bytes (§6: Usual-variant
public key = 48 bytes). -/
def g1_compressed_size : Nat := 48

/-- Modelled from the spec: the external library's canonical compressed
encoding size of the BLS12-381 G2 group, 96 bytes (§6: Usual-variant
signature = 96 bytes). -/
def g2_compressed_size : Nat := 96

/-- Modelled from the spec: the external library's canonical
*uncompressed* affine serialization of a BLS12-381 G1 point carries both
coordinates, 96 bytes — twice the 48-byte compressed form (§4.5
distinguishes the uncompressed serialization from the compressed wire
form). -/
def g1_uncompressed_size : Nat := 96

/-- Modelled from the spec: the external library's canonical
*uncompressed* affine serialization of a BLS12-381 G2 point carries both
extension-field coordinates, 192 bytes — twice the 96-byte compressed
form. -/
def g2_uncompressed_size : Nat := 192

/-- The `$size` argument `zbls_serialization!` passes for `Signature`:
96 for `UsualBLS`, 48 for `TinyBLS` (source lines 510-511). -/
def signature_wire_size : BLSVariant → Nat
  | .UsualBLS => 96
  | .TinyBLS => 48

/-- The `$size` argument `zbls_serialization!` passes for `PublicKey`:
48 for `UsualBLS`, 96 for `TinyBLS` (source lines 548-549). -/
def publickey_wire_size : BLSVariant → Nat
  | .UsualBLS => 48
  | .TinyBLS => 96

/-- Modelled from the spec (§3): the Usual variant places signatures in
the larger group G2 and public keys in G1; Tiny swaps the roles.  Size
of the uncompressed serialization of the variant's signature group. -/
def signature_group_uncompressed_size : BLSVariant → Nat
  | .UsualBLS => g2_uncompressed_size
  | .TinyBLS => g1_uncompressed_size

/-- Modelled from the spec (§3): size of the uncompressed serialization
of the variant's public-key group. -/
def publickey_group_uncompressed_size : BLSVariant → Nat
  | .UsualBLS => g1_uncompressed_size
  | .TinyBLS => g2_uncompressed_size

end Codec

section VRF

variable {G A P : Type}

/-- `digest::Input::input`: absorbing bytes into a hash state, modelled
as appending to the transcript of absorbed bytes. -/
def hash_input (h : List Nat) (bytes : List Nat) : List Nat := h ++ bytes

/-- The literal tag `b"msg"`. -/
def msg_tag : List Nat := [109, 115, 103]

/-- The literal tag `b"out"`. -/
def out_tag : List Nat := [111, 117, 116]

/-- `SignedMessage::vrf_hash`: feed the hash state with `b"msg"`, the
message payload bytes (`self.message.0`; the payload accessor is
modelled from the spec since `Message` is defined outside the excerpt),
`b"out"`, and the uncompressed serialization of the signature's affine
form. -/
def SignedMessage.vrf_hash (ops : CurveOps G A) (sm : SignedMessage G P)
    (h : List Nat) : List Nat :=
  let h1 := hash_input h msg_tag
  let h2 := hash_input h1 sm.message.payload
  let h3 := hash_input h2 out_tag
  let affine_signature := ops.into_affine sm.signature.pt
  let serialized_signature := ops.serialize_uncompressed affine_signature
  hash_input h3 serialized_signature

/-- `SignedMessage::make_bytes`: start from an empty `Shake128` state,
absorb `context`, run `vrf_hash`, and squeeze `outLen` bytes.  The
extendable-output function itself is the external collaborator `xof`,
a pure function of the absorbed transcript and the output length. -/
def SignedMessage.make_bytes (ops : CurveOps G A) (xof : List Nat → Nat → List Nat)
    (sm : SignedMessage G P) (context : List Nat) (outLen : Nat) : List Nat :=
  let t : List Nat := []
  let t1 := hash_input t context
  let t2 := sm.vrf_hash ops t1
  xof t2 outLen

end VRF

/-! ## Helper lemmas on the secret-key lifecycle -/

section LifecycleLemmas

set_option linter.unusedSectionVars false

variable {S G : Type} [CommRing S] [AddCommGroup G] [Module S G]

lemma SecretKey.resplit_key_sum (sk : SecretKey S G) (x : S) :
    (sk.resplit x).key0 + (sk.resplit x).key1 = sk.key0 + sk.key1 := by
  simp only [SecretKey.resplit]
  ring

lemma SecretKey.resplit_old_unsigned (sk : SecretKey S G) (x : S) :
    (sk.resplit x).old_unsigned = sk.old_unsigned := rfl

lemma SecretKey.resplit_old_signed (sk : SecretKey S G) (x : S) :
    (sk.resplit x).old_signed = sk.old_signed := rfl

lemma SecretKey.resplit_invariant (sk : SecretKey S G) (x : S)
    (h : sk.point_mutation_invariant) : (sk.resplit x).point_mutation_invariant := by
  unfold SecretKey.point_mutation_invariant at h ⊢
  simp only [SecretKey.resplit] at h ⊢
  rw [h]
  module

lemma SecretKey.resplits_key_sum (sk : SecretKey S G) (xs : List S) :
    (sk.resplits xs).key0 + (sk.resplits xs).key1 = sk.key0 + sk.key1 := by
  induction xs generalizing sk with
  | nil => rfl
  | cons y ys ih =>
      simp only [SecretKey.resplits, List.foldl_cons] at ih ⊢
      rw [ih (sk.resplit y), SecretKey.resplit_key_sum]

lemma SecretKey.resplits_old_unsigned (sk : SecretKey S G) (xs : List S) :
    (sk.resplits xs).old_unsigned = sk.old_unsigned := by
  induction xs generalizing sk with
  | nil => rfl
  | cons y ys ih =>
      simp only [SecretKey.resplits, List.foldl_cons] at ih ⊢
      rw [ih (sk.resplit y), SecretKey.resplit_old_unsigned]

lemma SecretKey.resplits_old_signed (sk : SecretKey S G) (xs : List S) :
    (sk.resplits xs).old_signed = sk.old_signed := by
  induction xs generalizing sk with
  | nil => rfl
  | cons y ys ih =>
      simp only [SecretKey.resplits, List.foldl_cons] at ih ⊢
      rw [ih (sk.resplit y), SecretKey.resplit_old_signed]

lemma SecretKey.resplits_invariant (sk : SecretKey S G) (xs : List S)
    (h : sk.point_mutation_invariant) : (sk.resplits xs).point_mutation_invariant := by
  induction xs generalizing sk with
  | nil => exact h
  | cons y ys ih =>
      simp only [SecretKey.resplits, List.foldl_cons] at ih ⊢
      exact ih (sk.resplit y) (sk.resplit_invariant y h)

lemma SecretKey.sign_once_sig (sk : SecretKey S G) (hashM : Message → G) (m : Message) :
    (sk.sign_once hashM m).2
      = Signature.mk (sk.key1 • (hashM m - sk.old_unsigned)
          + sk.key0 • (hashM m - sk.old_unsigned) + sk.old_signed) := rfl

lemma SecretKey.sign_once_state (sk : SecretKey S G) (hashM : Message → G) (m : Message) :
    (sk.sign_once hashM m).1
      = { sk with
          old_unsigned := hashM m - sk.old_unsigned,
          old_signed := sk.key1 • (hashM m - sk.old_unsigned)
            + sk.key0 • (hashM m - sk.old_unsigned) } := rfl

/-- Correctness of one `sign_once` call: under the key-sum and
point-mutation invariants the produced signature is `secret • H(m)`. -/
lemma SecretKey.sign_once_correct (sk : SecretKey S G) (secret : S)
    (hashM : Message → G) (m : Message)
    (hsum : sk.key0 + sk.key1 = secret)
    (hinv : sk.point_mutation_invariant) :
    (sk.sign_once hashM m).2 = Signature.mk (secret • hashM m) := by
  rw [SecretKey.sign_once_sig]
  congr 1
  rw [hinv, ← hsum]
  module

end LifecycleLemmas

/-! ## Claim theorems: secret-key lifecycle -/

section LifecycleTheorems

set_option linter.unusedSectionVars false

variable {S G : Type} [CommRing S] [AddCommGroup G] [Module S G]

/-- C1: if a `SecretKey`'s shares sum to `secret` and its point-mutation
invariant holds, then after any prior sequence of `resplit` calls and
for any resplit randomness, `SecretKey::sign` (resplit followed by
`sign_once`) returns the same signature as `SecretKeyVT(secret).sign`,
namely `secret • H(message)`. -/
theorem protected_sign_refines_vartime_sign
    (sk : SecretKey S G) (secret : S) (hashM : Message → G) (message : Message)
    (xs : List S) (x : S)
    (hsum : sk.key0 + sk.key1 = secret)
    (hinv : sk.point_mutation_invariant) :
    ((sk.resplits xs).sign x hashM message).2
        = (SecretKeyVT.mk secret).sign hashM message
      ∧ ((sk.resplits xs).sign x hashM message).2
        = Signature.mk (secret • hashM message) := by
  have hsum' : ((sk.resplits xs).resplit x).key0 + ((sk.resplits xs).resplit x).key1
      = secret := by
    rw [SecretKey.resplit_key_sum, SecretKey.resplits_key_sum, hsum]
  have hinv' : ((sk.resplits xs).resplit x).point_mutation_invariant :=
    ((sk.resplits xs).resplit_invariant x (sk.resplits_invariant xs hinv))
  have h := ((sk.resplits xs).resplit x).sign_once_correct secret hashM message hsum' hinv'
  exact ⟨h, h⟩

/-- Witness for C1 at a concrete instance: secret `7 = 3 + 4`, the
invariant `14 = 3·2 + 4·2` holds, and signing returns `7·5 = 35`. -/
theorem protected_sign_refines_vartime_sign_witness :
    (((⟨3, 4, 2, 14⟩ : SecretKey ℤ ℤ).resplits [1, -2]).sign 11 (fun _ => 5) ⟨[], []⟩).2
        = (SecretKeyVT.mk (7 : ℤ)).sign (fun _ => (5 : ℤ)) ⟨[], []⟩
      ∧ (((⟨3, 4, 2, 14⟩ : SecretKey ℤ ℤ).resplits [1, -2]).sign 11 (fun _ => 5) ⟨[], []⟩).2
        = Signature.mk ((7 : ℤ) • (5 : ℤ)) :=
  protected_sign_refines_vartime_sign (S := ℤ) (G := ℤ) ⟨3, 4, 2, 14⟩ 7 (fun _ => 5) ⟨[], []⟩
    [1, -2] 11 (by decide) (by decide)

/-- C2: the point-mutation invariant
`old_signed == key0·old_unsigned + key1·old_unsigned` is established by
`init_point_mutation` for every key-share pair and every sampled random
point, and is preserved by every `sign_once` call. -/
theorem point_mutation_invariant_established_and_preserved
    (sk : SecretKey S G) (r : G) (hashM : Message → G) (message : Message) :
    (sk.init_point_mutation r).point_mutation_invariant
      ∧ (sk.point_mutation_invariant →
          ((sk.sign_once hashM message).1).point_mutation_invariant) := by
  constructor
  · unfold SecretKey.point_mutation_invariant SecretKey.init_point_mutation
    rfl
  · intro _
    unfold SecretKey.point_mutation_invariant
    rw [SecretKey.sign_once_state]
    module

/-- Witness for C2 at a concrete instance. -/
theorem point_mutation_invariant_established_and_preserved_witness :
    ((⟨3, 4, 2, 14⟩ : SecretKey ℤ ℤ).init_point_mutation 6).point_mutation_invariant
      ∧ (((⟨3, 4, 2, 14⟩ : SecretKey ℤ ℤ).sign_once (fun _ => 5) ⟨[], []⟩).1).point_mutation_invariant :=
  ⟨(point_mutation_invariant_established_and_preserved ⟨3, 4, 2, 14⟩ 6 (fun _ => 5) ⟨[], []⟩).1,
   (point_mutation_invariant_established_and_preserved ⟨3, 4, 2, 14⟩ 6 (fun _ => 5) ⟨[], []⟩).2
     (by decide)⟩

/-- C3: any finite sequence of `resplit` calls leaves `key0 + key1`
unchanged (so `into_vartime` returns the same scalar), and a subsequent
`sign` yields the same signature as with no resplit calls, whatever the
resplit randomness on either side. -/
theorem resplit_sequence_invariance
    (sk : SecretKey S G) (xs : List S) (x y : S)
    (hashM : Message → G) (message : Message) :
    (sk.resplits xs).key0 + (sk.resplits xs).key1 = sk.key0 + sk.key1
      ∧ (sk.resplits xs).into_vartime = sk.into_vartime
      ∧ ((sk.resplits xs).sign x hashM message).2 = (sk.sign y hashM message).2 := by
  refine ⟨sk.resplits_key_sum xs, ?_, ?_⟩
  · unfold SecretKey.into_vartime
    rw [sk.resplits_key_sum xs]
  · unfold SecretKey.sign
    rw [SecretKey.sign_once_sig, SecretKey.sign_once_sig]
    have hu : ((sk.resplits xs).resplit x).old_unsigned = (sk.resplit y).old_unsigned := by
      rw [SecretKey.resplit_old_unsigned, SecretKey.resplit_old_unsigned,
        SecretKey.resplits_old_unsigned]
    have hs : ((sk.resplits xs).resplit x).old_signed = (sk.resplit y).old_signed := by
      rw [SecretKey.resplit_old_signed, SecretKey.resplit_old_signed,
        SecretKey.resplits_old_signed]
    have hk : ((sk.resplits xs).resplit x).key0 + ((sk.resplits xs).resplit x).key1
        = (sk.resplit y).key0 + (sk.resplit y).key1 := by
      rw [SecretKey.resplit_key_sum, SecretKey.resplit_key_sum, SecretKey.resplits_key_sum]
    rw [hu, hs]
    congr 1
    have e1 : ∀ (B : SecretKey S G) (z : G),
        B.key1 • z + B.key0 • z + (sk.resplit y).old_signed
          = (B.key0 + B.key1) • z + (sk.resplit y).old_signed := by
      intro B z
      congr 1
      module
    rw [e1, e1, hk]

/-- C7: public-key derivation agrees across the two secret-key forms:
`SecretKey::into_public` (computed as `key0·gen + key1·gen`) equals
`into_vartime().into_public()` (computed as `(key0+key1)·gen`). -/
theorem into_public_agreement {P : Type} [AddCommGroup P] [Module S P]
    (sk : SecretKey S G) (gen : P) :
    (sk.into_public gen : PublicKey P) = (sk.into_vartime).into_public gen := by
  unfold SecretKey.into_public SecretKey.into_vartime SecretKeyVT.into_public
  congr 1
  rw [add_smul]

/-- C10: immediately after `into_split_dirty` (which sets
`key = [secret, 0]` and `old_unsigned = old_signed = 0`) the
point-mutation invariant already holds, and the very first `sign_once`
call, with no prior `init_point_mutation`, already returns
`secret • H(message)`. -/
theorem split_dirty_invariant_and_first_sign (secret : S)
    (hashM : Message → G) (message : Message) :
    ((SecretKeyVT.mk secret).into_split_dirty : SecretKey S G).point_mutation_invariant
      ∧ (((SecretKeyVT.mk secret).into_split_dirty : SecretKey S G).sign_once
            hashM message).2
        = Signature.mk (secret • hashM message) := by
  constructor
  · unfold SecretKey.point_mutation_invariant SecretKeyVT.into_split_dirty
    simp
  · exact SecretKey.sign_once_correct _ secret hashM message (by simp [SecretKeyVT.into_split_dirty])
      (by unfold SecretKey.point_mutation_invariant SecretKeyVT.into_split_dirty; simp)

end LifecycleTheorems

/-! ## Claim theorems: compression codec and wire format -/

/-- A concrete instantiation of the external curve collaborator over
`ℕ` points, used to evaluate the codec theorems at concrete inputs:
points serialize compressed to a singleton list, parse back exactly,
and the uncompressed serialization has the fixed length `n`. -/
def constSerCodec (n : Nat) : CurveOps ℕ ℕ where
  into_affine := id
  into_projective := id
  into_compressed := fun a => [a]
  encoded_into_affine := fun l =>
    match l with
    | [a] => Except.ok a
    | _ => Except.error GroupDecodingError.UnexpectedInformation
  serialize_uncompressed := fun _ => List.replicate n 0

/-- C4: for every valid `Signature` and `PublicKey` value,
`decompress (compress x) == x`.  The two hypotheses on each collaborator
are the external library's canonical-serialization contract (§6): the
validating parse inverts the canonical compressed encoding, and
affine→projective inverts projective→affine on the represented group
element. -/
theorem decompress_compress_roundtrip {G A P B : Type}
    (opsS : CurveOps G A) (opsP : CurveOps P B)
    (hS1 : ∀ a, opsS.encoded_into_affine (opsS.into_compressed a) = Except.ok a)
    (hS2 : ∀ x, opsS.into_projective (opsS.into_affine x) = x)
    (hP1 : ∀ b, opsP.encoded_into_affine (opsP.into_compressed b) = Except.ok b)
    (hP2 : ∀ y, opsP.into_projective (opsP.into_affine y) = y)
    (sg : Signature G) (pk : PublicKey P) :
    Signature.decompress opsS (Signature.compress opsS sg) = Except.ok sg
      ∧ PublicKey.decompress opsP (PublicKey.compress opsP pk) = Except.ok pk := by
  constructor
  · simp [Signature.decompress, Signature.compress, hS1, hS2, Except.map]
  · simp [PublicKey.decompress, PublicKey.compress, hP1, hP2, Except.map]

/-- Witness for C4 at the concrete codec. -/
theorem decompress_compress_roundtrip_witness :
    Signature.decompress (constSerCodec 2)
        (Signature.compress (constSerCodec 2) (Signature.mk 5)) = Except.ok (Signature.mk 5)
      ∧ PublicKey.decompress (constSerCodec 2)
        (PublicKey.compress (constSerCodec 2) (PublicKey.mk 9)) = Except.ok (PublicKey.mk 9) :=
  decompress_compress_roundtrip (constSerCodec 2) (constSerCodec 2)
    (fun _ => rfl) (fun _ => rfl) (fun _ => rfl) (fun _ => rfl)
    (Signature.mk 5) (PublicKey.mk 9)

/-- C5 (code bug): `to_bytes` never returns the claimed fixed-size
compressed encoding.  `EncodedPoint::from_affine` fills the buffer with
the *uncompressed* serialization (96 or 192 bytes), so
`copy_from_slice` into the `[u8; 48]`/`[u8; 96]` wire array always hits
a length mismatch and panics (modelled as `none`), for both wrappers and
both variants. -/
theorem to_bytes_copies_uncompressed_and_panics {G A P B : Type} (v : BLSVariant)
    (opsS : CurveOps G A) (opsP : CurveOps P B)
    (hS : ∀ a, (opsS.serialize_uncompressed a).length = signature_group_uncompressed_size v)
    (hP : ∀ b, (opsP.serialize_uncompressed b).length = publickey_group_uncompressed_size v)
    (x : Signature G) (y : PublicKey P) :
    Signature.to_bytes opsS (signature_wire_size v) x = none
      ∧ PublicKey.to_bytes opsP (publickey_wire_size v) y = none := by
  cases v <;>
    exact ⟨by simp [Signature.to_bytes, EncodedPoint.from_affine, hS,
        signature_wire_size, signature_group_uncompressed_size,
        g1_uncompressed_size, g2_uncompressed_size],
      by simp [PublicKey.to_bytes, EncodedPoint.from_affine, hP,
        publickey_wire_size, publickey_group_uncompressed_size,
        g1_uncompressed_size, g2_uncompressed_size]⟩

set_option maxRecDepth 4000 in
/-- Witness for C5 at the Usual variant and concrete points. -/
theorem to_bytes_copies_uncompressed_and_panics_witness :
    Signature.to_bytes (constSerCodec 192) (signature_wire_size BLSVariant.UsualBLS)
        (Signature.mk 5) = none
      ∧ PublicKey.to_bytes (constSerCodec 96) (publickey_wire_size BLSVariant.UsualBLS)
        (PublicKey.mk 9) = none :=
  to_bytes_copies_uncompressed_and_panics BLSVariant.UsualBLS
    (constSerCodec 192) (constSerCodec 96)
    (fun _ => by simp [constSerCodec, signature_group_uncompressed_size, g2_uncompressed_size])
    (fun _ => by simp [constSerCodec, publickey_group_uncompressed_size, g1_uncompressed_size])
    (Signature.mk 5) (PublicKey.mk 9)

/-- A concrete collaborator whose validating parse accepts every byte
string (returning the point `0`), used to observe whether
`decompress_from_slice` actually attempts to parse a slice. -/
def acceptAllCodec : CurveOps ℕ ℕ where
  into_affine := id
  into_projective := id
  into_compressed := fun a => [a]
  encoded_into_affine := fun _ => Except.ok 0
  serialize_uncompressed := fun _ => []

/-- C6 (code bug): `decompress_from_slice` compares the slice length
against `EncodedPoint::empty()`'s representation — the macro's
`$encodedwrapper::default()`, an empty `Vec` of length 0 — not against
the expected fixed-size compressed encoding.  Evaluated at the failing
input: the empty slice (whose length 0 differs from the expected 48/96)
passes the guard and *is* parsed (here the accept-all parse observably
runs and returns a point), while a correctly-sized 48/96-byte slice is
rejected with `UnexpectedInformation`. -/
theorem decompress_from_slice_checks_default_empty_length :
    Signature.decompress_from_slice acceptAllCodec [] = Except.ok (Signature.mk 0)
      ∧ PublicKey.decompress_from_slice acceptAllCodec [] = Except.ok (PublicKey.mk 0)
      ∧ Signature.decompress_from_slice acceptAllCodec (List.replicate 96 0)
        = Except.error GroupDecodingError.UnexpectedInformation
      ∧ PublicKey.decompress_from_slice acceptAllCodec (List.replicate 48 0)
        = Except.error GroupDecodingError.UnexpectedInformation := by
  refine ⟨rfl, rfl, ?_, ?_⟩
  · simp [Signature.decompress_from_slice, EncodedPoint.empty]
  · simp [PublicKey.decompress_from_slice, EncodedPoint.empty]

/-! ## Claim theorems: VRF output derivation -/

/-- C8: `vrf_hash` feeds the hash state exactly the tag `b"msg"`, the
raw message payload bytes, the tag `b"out"`, and the uncompressed
affine serialization of the signature, in that order and nothing
else. -/
theorem vrf_hash_transcript {G A P : Type} (ops : CurveOps G A)
    (sm : SignedMessage G P) (h : List Nat) :
    sm.vrf_hash ops h
      = h ++ (msg_tag ++ (sm.message.payload ++ (out_tag
          ++ ops.serialize_uncompressed (ops.into_affine sm.signature.pt)))) := by
  simp [SignedMessage.vrf_hash, hash_input]

/-- C9: `make_bytes` is deterministic: two `SignedMessage` values with
equal message and signature fields (the public key may differ) yield
identical output for every context, output length, and extendable-output
collaborator. -/
theorem make_bytes_deterministic {G A P : Type} (ops : CurveOps G A)
    (xof : List Nat → Nat → List Nat) (sm1 sm2 : SignedMessage G P)
    (context : List Nat) (n : Nat)
    (hm : sm1.message = sm2.message) (hs : sm1.signature = sm2.signature) :
    sm1.make_bytes ops xof context n = sm2.make_bytes ops xof context n := by
  simp [SignedMessage.make_bytes, SignedMessage.vrf_hash, hash_input, hm, hs]

/-- Witness for C9: two signed messages agreeing on message and
signature but with different public keys give the same output. -/
theorem make_bytes_deterministic_witness :
    SignedMessage.make_bytes (constSerCodec 2) (fun t n => t.take n)
        (⟨⟨[1], [2]⟩, PublicKey.mk 3, Signature.mk 4⟩ : SignedMessage ℕ ℕ) [7] 5
      = SignedMessage.make_bytes (constSerCodec 2) (fun t n => t.take n)
        (⟨⟨[1], [2]⟩, PublicKey.mk 8, Signature.mk 4⟩ : SignedMessage ℕ ℕ) [7] 5 :=
  make_bytes_deterministic (constSerCodec 2) (fun t n => t.take n)
    ⟨⟨[1], [2]⟩, PublicKey.mk 3, Signature.mk 4⟩
    ⟨⟨[1], [2]⟩, PublicKey.mk 8, Signature.mk 4⟩ [7] 5 (by decide) (by decide)
